import Mathlib

/-!
Verification development for the tiny-instancer repository.

Shallow embedding of the instance-lifecycle core:
* `instancer/core/challenges.py` — challenge catalog, limit parsing, validation;
* `instancer/core/instances.py`  — start/stop/status lifecycle, rollback, pruner;
* `instancer/core/cache.py`      — the per-key distributed instance lock.

Machine state (the container daemon) is modelled explicitly; daemon calls that
may fail are driven by an explicit fault schedule.  Python strings are Lean
`String`s; Python floats are modelled as exact decimal values (the repository
only feeds plain decimal literals to `float()`, whose values are exactly
`n / 10 ^ k`); Python `int()` truncation toward zero is `decTrunc`.
-/

deriving instance DecidableEq for Except

/-! ## String helpers (embedding of the Python string operations used) -/

/-- Python `str.endswith(suffix)`: `suffix` is a suffix of `s`.
Implemented through reversed prefix testing, which is how suffix testing
reduces on cons cells. -/
def pyEndsWith (s suf : String) : Bool :=
  suf.data.reverse.isPrefixOf s.data.reverse

/-- Python `s[:-n]` for `n ≥ 1` (and `s[:len(s)-n]` in general): drop the last
`n` characters. -/
def pyDropRight (s : String) (n : Nat) : String :=
  ⟨s.data.take (s.data.length - n)⟩

/-- Python `str.lower()` (ASCII fragment, which is all the repository uses). -/
def pyLower (s : String) : String :=
  ⟨s.data.map Char.toLower⟩

/-- Python `str.startswith(p)`. -/
def pyStartsWith (s p : String) : Bool :=
  p.data.isPrefixOf s.data

def allDigits (l : List Char) : Bool := l.all (·.isDigit)

/-- Value of a list of decimal digit characters, most significant first. -/
def digitsToNat (l : List Char) : Nat :=
  l.foldl (fun a c => a * 10 + (c.toNat - 48)) 0

/-- Split a character list at the first `'.'`: returns the part before it and
the remainder starting with the dot (empty if there is no dot). -/
def breakDot : List Char → List Char × List Char
  | [] => ([], [])
  | c :: rest =>
    if c = '.' then ([], c :: rest)
    else
      let p := breakDot rest
      (c :: p.1, p.2)

/-- An exact decimal value `n / 10 ^ k`.  This is the model of the Python
floats occurring in this repository: `float()` is only ever applied to plain
decimal literals, whose exact value is of this shape. -/
structure Dec where
  n : Int
  k : Nat
deriving DecidableEq, Repr

/-- Python `float(s)` on plain decimal literals (`"12"`, `"1.5"`, `".5"`,
`"5."`), returning the exact decimal value; `none` models `ValueError`.
Exponent/inf/nan forms never occur in this repository's inputs and are
modelled as errors. -/
def parseDecimalCore (l : List Char) : Option Dec :=
  match breakDot l with
  | (ds, []) =>
    if ds ≠ [] && allDigits ds then some ⟨(digitsToNat ds : Int), 0⟩ else none
  | (ds, _ :: fs) =>
    if '.' ∈ fs then none
    else if (ds ≠ [] || fs ≠ []) && allDigits ds && allDigits fs then
      some ⟨(digitsToNat ds * 10 ^ fs.length + digitsToNat fs : Int), fs.length⟩
    else none

/-- `float(s)` with an optional leading minus sign. -/
def parseDecimal (s : String) : Option Dec :=
  match s.data with
  | [] => none
  | c :: rest =>
    if c = '-' then (parseDecimalCore rest).map (fun d => ⟨-d.n, d.k⟩)
    else parseDecimalCore (c :: rest)

/-- Python `int(s)` on plain decimal integer literals (optional leading `-`);
`none` models `ValueError` (in particular `int("1.5")` and `int("1k")` fail). -/
def parsePyInt (s : String) : Option Int :=
  match s.data with
  | [] => none
  | c :: rest =>
    if c = '-' then
      if rest ≠ [] && allDigits rest then some (-(digitsToNat rest : Int)) else none
    else if allDigits (c :: rest) then some ((digitsToNat (c :: rest) : Int)) else none

/-- Python `int(x)` applied to the exact decimal value `n / 10 ^ k`:
truncation toward zero. -/
def decTrunc (n : Int) (k : Nat) : Int :=
  if n < 0 then -((-n).fdiv (10 ^ k)) else n.fdiv (10 ^ k)

/-! ## Challenge catalog (`instancer/core/challenges.py`) -/

inductive ExposeKind where
  | https
  | http
  | tcp
deriving DecidableEq, Repr

structure Ulimit where
  name : String
  soft : Int
  hard : Int
deriving DecidableEq, Repr

/-- `Container.Limits`. -/
structure Limits where
  memory : String := "512m"
  cpu : String := "0.5"
  pids_limit : Int := 1024
  ulimits : List Ulimit := [⟨"nofile", 1024, 1024⟩]
deriving DecidableEq, Repr

/-- `Container.Security`. -/
structure Security where
  read_only_fs : Bool := true
  security_opt : List String := ["no-new-privileges"]
  cap_add : List String := []
  cap_drop : List String := ["ALL"]
deriving DecidableEq, Repr

structure Container where
  name : String
  image : String
  env : List (String × String) := []
  egress : Bool := false
  security : Security := {}
  limits : Limits := {}
deriving DecidableEq, Repr

structure Expose where
  kind : ExposeKind
  container_name : String
  container_port : Int
deriving DecidableEq, Repr

structure Challenge where
  name : String
  timeout : Int
  containers : List Container
  expose : List Expose
deriving DecidableEq, Repr

/-- `NANO_CPU_SCALE = 1_000_000_000`. -/
def NANO_CPU_SCALE : Int := 1000000000

/-- The suffix table of `Container.Limits.memory_bytes`, in the source's
insertion (= iteration) order. -/
def memorySuffixes : List (String × Nat) :=
  [("b", 1), ("k", 1024), ("kb", 1024), ("ki", 1024),
   ("m", 1024 ^ 2), ("mb", 1024 ^ 2), ("mi", 1024 ^ 2),
   ("g", 1024 ^ 3), ("gb", 1024 ^ 3), ("gi", 1024 ^ 3),
   ("t", 1024 ^ 4), ("tb", 1024 ^ 4)]

/-- `Container.Limits.memory_bytes`: lower-case the string, scan the suffix
table in order, parse the part before the first matching suffix as a float and
truncate `number * multiplier` to an int; with no matching suffix the whole
string must be an integer literal.  `none` models the `ValueError` raised by
`float()` / `int()`. -/
def memoryBytes (memory : String) : Option Int :=
  let mem := pyLower memory
  match memorySuffixes.find? (fun p => pyEndsWith mem p.1) with
  | some p => (parseDecimal (pyDropRight mem p.1.length)).map (fun d => decTrunc (d.n * (p.2 : Int)) d.k)
  | none => parsePyInt mem

/-- `Container.Limits.nano_cpus`: empty string is 0; a trailing `m` means
millicores (`int(cpu[:-1]) * NANO_CPU_SCALE // 1000`); otherwise a float CPU
count truncated after scaling by `NANO_CPU_SCALE`. -/
def nanoCpus (cpu : String) : Option Int :=
  if cpu = "" then some 0
  else if pyEndsWith cpu "m" then
    (parsePyInt (pyDropRight cpu 1)).map (fun mc => (mc * NANO_CPU_SCALE).fdiv 1000)
  else (parseDecimal cpu).map (fun d => decTrunc (d.n * NANO_CPU_SCALE) d.k)

/-- `require_valid_name`: full match of `[a-z0-9-]+`. -/
def validName (s : String) : Bool :=
  !s.data.isEmpty && s.data.all (fun c => c.isDigit || (97 ≤ c.toNat && c.toNat ≤ 122) || c = '-')

/-- `Container` validation: the `name` field validator plus `validate_model`.
`validate_model` only *logs warnings* for `read_only_fs`, empty
`security_opt` and non-positive limits; it fails only when evaluating
`memory_bytes` / `nano_cpus` raises (a parse error). -/
def containerValidate (c : Container) : Bool :=
  validName c.name && (memoryBytes c.limits.memory).isSome && (nanoCpus c.limits.cpu).isSome

/-- `Challenge` validation: the `name` field validator, per-container
validation (pydantic validates nested models), and `validate_model`, which
rejects an `expose` entry naming a container that does not exist.  No check
of container-name uniqueness is performed. -/
def challengeValidate (ch : Challenge) : Bool :=
  validName ch.name && ch.containers.all containerValidate &&
    ch.expose.all (fun e => ch.containers.any (fun c => c.name == e.container_name))

/-- Whether some `expose` entry references a container name that is absent. -/
def hasUnknownExposeRef (ch : Challenge) : Bool :=
  ch.expose.any (fun e => !(ch.containers.any (fun c => c.name == e.container_name)))

/-- `result[challenge.name] = challenge`: Python dict assignment (overwrite in
place, append if new). -/
def catInsert (acc : List (String × Challenge)) (ch : Challenge) : List (String × Challenge) :=
  if acc.any (fun p => p.1 == ch.name) then
    acc.map (fun p => if p.1 == ch.name then (p.1, ch) else p)
  else acc ++ [(ch.name, ch)]

/-- `load_challenges` restricted to one YAML stream whose documents already
parsed into `Challenge`-shaped values: validate each document in order;
validation failures are logged and skipped, valid documents are inserted into
the result dict. -/
def loadChallenges (docs : List Challenge) : List (String × Challenge) :=
  docs.foldl (fun acc d => if challengeValidate d then catInsert acc d else acc) []

/-- Dict lookup `challenges.get(name)`. -/
def catLookup (cat : List (String × Challenge)) (name : String) : Option Challenge :=
  (cat.find? (fun p => p.1 == name)).map (·.2)

/-! ## Instance lifecycle (`instancer/core/instances.py`)

The container daemon is the mutable external state.  Daemon calls that can
fail with a `DockerError` are driven by an explicit fault schedule
`fault : Nat → Bool` consulted at an operation counter: `fault i = true`
means the `i`-th mutating daemon call of this request raises.  Containers are
identified by their (daemon-unique) names; labels are immutable once a
resource is created, as in Docker. -/

/-- The managed labels attached to every container the instancer creates
(`ContainerLabels`).  `managed` stands for carrying
`io.es3n1n.managed_by = config.DOCKER_MANAGER_NAME`. -/
structure MLabels where
  managed : Bool
  challenge : String
  teamId : String
  hostname : String
  instanceId : String
  startedAt : Int
  expiresAt : Int
deriving DecidableEq, Repr

structure DContainer where
  name : String
  labels : MLabels
  running : Bool
  networks : List String
deriving DecidableEq, Repr

/-- A daemon network.  The instancer labels its networks with `managed_by`
and `expires_at` only. -/
structure DNetwork where
  name : String
  managed : Bool
  expiresAt : Int
  internal : Bool
  connected : List String
deriving DecidableEq, Repr

structure DaemonState where
  containers : List DContainer
  networks : List DNetwork
  images : List String
deriving DecidableEq, Repr

/-- Configuration values used by the lifecycle (subset of `Settings`). -/
structure Cfg where
  pfx : String
  httpPort : Int
  httpsPort : Int
  tcpPort : Int
  instancesHost : String
  traefikName : String
deriving DecidableEq, Repr

/-- `expose_kind_to_port`. -/
def exposeKindToPort (cfg : Cfg) : ExposeKind → Int
  | .http => cfg.httpPort
  | .https => cfg.httpsPort
  | .tcp => cfg.tcpPort

inductive InstanceStatus where
  | stopped
  | running
  | starting
deriving DecidableEq, Repr

structure Endpoint where
  kind : ExposeKind
  host : String
  port : Int
deriving DecidableEq, Repr

/-- The `Instance` response model. -/
structure InstanceOut where
  status : InstanceStatus
  timeout : Int
  endpoints : Option (List Endpoint)
  remainingTime : Option Int
deriving DecidableEq, Repr

structure HTTPError where
  status : Nat
  detail : String
deriving DecidableEq, Repr

/-- `NOT_ACQUIRED_ERROR`. -/
def notAcquiredError : HTTPError := ⟨400, "Another instance operation is in progress."⟩

def alreadyRunningError : HTTPError := ⟨400, "Instance is already running"⟩

def instanceNotFoundError : HTTPError := ⟨404, "Instance not found"⟩

def challengeNotFoundError : HTTPError := ⟨404, "Challenge not found"⟩

def startFailedError : HTTPError := ⟨500, "Failed to start instance"⟩

/-- An operation outcome: an `HTTPException`; an uncaught `DockerError`; or
the redis `LockError("Cannot release an unlocked lock")` raised by the
unconditional `await lock.release()` in `instance_lock`'s `finally` when the
blocking acquire timed out and no token is held.  `daemon` and `lockRelease`
are not `HTTPException`s, so the framework surfaces them as HTTP 500. -/
inductive OpError where
  | http (e : HTTPError)
  | daemon
  | lockRelease
deriving DecidableEq, Repr

/-- The `_get_search_filters` label filter: managed by us, with the given
challenge and team labels (plus the running-state filter when
`running_only`). -/
def hasKey (chName team : String) (c : DContainer) : Bool :=
  c.labels.managed && c.labels.challenge == chName && c.labels.teamId == team

/-- `get_containers`: daemon container listing with the key filter.
A `DockerError` from the daemon (`listFails = true`) is caught, logged and
turned into an empty list. -/
def getContainers (listFails : Bool) (s : DaemonState) (chName team : String)
    (runningOnly : Bool) : List DContainer :=
  if listFails then []
  else s.containers.filter (fun c => hasKey chName team c && (!runningOnly || c.running))

/-- `is_running`. -/
def isRunning (listFails : Bool) (s : DaemonState) (chName team : String) : Bool :=
  !(getContainers listFails s chName team true).isEmpty

/-- `_get_endpoints`: one endpoint per expose rule `if host` — Python
truthiness, so both `None` and the empty string yield `None`. -/
def getEndpoints (cfg : Cfg) (ch : Challenge) (host : Option String) : Option (List Endpoint) :=
  match host with
  | some h =>
    if h = "" then none
    else some (ch.expose.map (fun e => ⟨e.kind, h, exposeKindToPort cfg e.kind⟩))
  | none => none

/-- `get_instance` (the status operation; lock-free). -/
def getInstance (cfg : Cfg) (catalog : String → Option Challenge) (listFails : Bool)
    (now : Int) (chName team : String) (s : DaemonState) : Except OpError InstanceOut :=
  let cs := (getContainers listFails s chName team false).take 1
  match catalog chName with
  | none => .error (.http challengeNotFoundError)
  | some ch =>
    match cs.head? with
    | none => .ok ⟨.stopped, ch.timeout, getEndpoints cfg ch none, none⟩
    | some c =>
      .ok ⟨if c.running then .running else .starting, ch.timeout,
        getEndpoints cfg ch (some c.labels.hostname),
        if c.labels.expiresAt ≠ 0 then some (max 0 (c.labels.expiresAt - now)) else none⟩

/-- Disconnect every container attached to network `name` (force) and delete
it; used by both the stop path and `_cleanup_networks`.  Deleting also drops
the name from the containers' attachment lists. -/
def cleanupOneNetwork (d : DaemonState) (name : String) : DaemonState :=
  { d with
    networks := d.networks.filter (fun n => !(n.name == name)),
    containers := d.containers.map (fun c => { c with networks := c.networks.filter (fun x => !(x == name)) }) }

/-- `_cleanup_networks`: for each tracked name, fetch the network (a missing
network is skipped, as its `DockerError` is caught), disconnect every
attached container with force, then delete it. -/
def cleanupNetworksRun (d : DaemonState) (names : List String) : DaemonState :=
  names.foldl (fun st n => if st.networks.any (fun x => x.name == n) then cleanupOneNetwork st n else st) d

/-- `_cleanup_containers`: force-delete every tracked container.  Tracked
container names are daemon-unique, so deletion by name is deletion of the
tracked objects. -/
def cleanupContainersRun (d : DaemonState) (names : List String) : DaemonState :=
  if names.isEmpty then d
  else { d with containers := d.containers.filter (fun c => !(names.contains c.name)) }

/-- First-occurrence deduplication: the model of collecting names into a
Python `set` and iterating it. -/
def dedupStr (l : List String) : List String :=
  l.foldl (fun acc x => if acc.contains x then acc else acc ++ [x]) []

/-- The teardown body of `stop_instance` after the existence check: collect
every attached network whose name starts with `{prefix}-` from the listed
containers, stop and force-delete the containers (errors swallowed), then for
each collected network disconnect everyone and delete it.  The network fetch
in the stop path is *not* error-guarded: a missing network raises before any
network is mutated (second component `false`). -/
def stopRun (cfg : Cfg) (s : DaemonState) (chName team : String) (cs : List DContainer) :
    DaemonState × Bool :=
  let nets := dedupStr (cs.foldl (fun acc c =>
    acc ++ c.networks.filter (fun n => pyStartsWith n (cfg.pfx ++ "-"))) [])
  let s1 := { s with containers := s.containers.filter (fun c => !(hasKey chName team c)) }
  if nets.all (fun n => s1.networks.any (fun x => x.name == n)) then
    (cleanupNetworksRun s1 nets, true)
  else (s1, false)

/-- `stop_instance`: under the per-key lock (`acquired` is the lock outcome),
list the key's containers, fail with 404 if none, then tear everything down
and answer a STOPPED instance.  When the acquire timed out the body raises
`NOT_ACQUIRED_ERROR` (400), but `instance_lock`'s `finally` unconditionally
awaits `lock.release()`; releasing the never-acquired lock raises the redis
`LockError`, which supersedes the in-flight 400 and is what the call
surfaces (a 500). -/
def stopInstance (cfg : Cfg) (catalog : String → Option Challenge)
    (acquired listFails : Bool) (chName team : String) (s : DaemonState) :
    DaemonState × Except OpError InstanceOut :=
  if !acquired then (s, .error .lockRelease)
  else
    let cs := getContainers listFails s chName team false
    if cs.isEmpty then (s, .error (.http instanceNotFoundError))
    else
      let p := stopRun cfg s chName team cs
      if !p.2 then (p.1, .error .daemon)
      else
        match catalog chName with
        | none => (p.1, .error (.http challengeNotFoundError))
        | some ch => (p.1, .ok ⟨.stopped, ch.timeout, none, none⟩)

/-! ### The start path -/

/-- Execution context of one `start_instance` request: the daemon state plus
the mutating-call counter consulted by the fault schedule. -/
structure Exec where
  d : DaemonState
  idx : Nat
deriving DecidableEq, Repr

/-- One mutating daemon call: raises (returns `false`) when the fault
schedule says so, otherwise applies its effect. -/
def dcall (fault : Nat → Bool) (f : DaemonState → DaemonState) (e : Exec) : Exec × Bool :=
  if fault e.idx then (⟨e.d, e.idx + 1⟩, false)
  else (⟨f e.d, e.idx + 1⟩, true)

def svcNetName (cfg : Cfg) (chName team iid : String) : String :=
  cfg.pfx ++ "-svc-" ++ chName ++ "-" ++ team ++ "-" ++ iid

def egNetName (cfg : Cfg) (chName team iid : String) : String :=
  cfg.pfx ++ "-eg-" ++ chName ++ "-" ++ team ++ "-" ++ iid

def hostName (cfg : Cfg) (ch : Challenge) (iid : String) : String :=
  ch.name ++ "-" ++ iid ++ "." ++ cfg.instancesHost

def containerName (cfg : Cfg) (chName team : String) (c : Container) : String :=
  cfg.pfx ++ "-" ++ chName ++ "-" ++ team ++ "-" ++ c.name

def addNetwork (name : String) (internal : Bool) (expiresAt : Int) (d : DaemonState) : DaemonState :=
  { d with networks := d.networks ++ [⟨name, true, expiresAt, internal, []⟩] }

def connectToNetwork (netName contName : String) (d : DaemonState) : DaemonState :=
  { d with networks := d.networks.map (fun n =>
      if n.name == netName then { n with connected := n.connected ++ [contName] } else n) }

/-- `_ensure_network`: fetch the network by name; if absent, create it with
the `managed_by` / `expires_at` labels (one mutating call).  If `internal`,
connect the traefik container (one mutating call whose 409 is ignored, so a
modelled fault is a non-409 error).  Note the network-creation effect happens
*before* the connect call: a connect failure leaves the network behind. -/
def ensureNetwork (cfg : Cfg) (fault : Nat → Bool) (name : String) (internal : Bool)
    (expiresAt : Int) (e : Exec) : Exec × Bool :=
  let p :=
    if e.d.networks.any (fun n => n.name == name) then (e, true)
    else dcall fault (addNetwork name internal expiresAt) e
  if !p.2 then p
  else if internal then dcall fault (connectToNetwork name cfg.traefikName) p.1
  else (p.1, true)

/-- `images.get` / `images.pull`: a missing image is pulled (one mutating
call). -/
def ensureImage (fault : Nat → Bool) (img : String) (e : Exec) : Exec × Bool :=
  if e.d.images.contains img then (e, true)
  else dcall fault (fun d => { d with images := d.images ++ [img] }) e

def mkLabels (chName team host iid : String) (startedAt expiresAt : Int) : MLabels :=
  ⟨true, chName, team, host, iid, startedAt, expiresAt⟩

/-- `containers.create` effect: the container appears (not running) attached
to its endpoint networks, and those networks list it as connected. -/
def addContainer (cname : String) (lbl : MLabels) (nets : List String) (d : DaemonState) : DaemonState :=
  let d1 := { d with containers := d.containers ++ [⟨cname, lbl, false, nets⟩] }
  nets.foldl (fun dd nn => connectToNetwork nn cname dd) d1

/-- Step 3 of `start_instance`: per container in catalog order, ensure the
image, then create the container with the managed labels and endpoints
config; each created container is appended to the rollback-tracking list.
`containers.create` on an already-taken name fails like any daemon error. -/
def createLoop (cfg : Cfg) (fault : Nat → Bool) (chName team host iid : String)
    (startedAt expiresAt : Int) (svcN egN : String) :
    List Container → Exec → List String → Exec × List String × Bool
  | [], e, created => (e, created, true)
  | c :: rest, e, created =>
    let pI := ensureImage fault c.image e
    if !pI.2 then (pI.1, created, false)
    else
      let cname := containerName cfg chName team c
      let nets := if c.egress then [svcN, egN] else [svcN]
      let pC :=
        if pI.1.d.containers.any (fun x => x.name == cname) then (⟨pI.1.d, pI.1.idx + 1⟩, false)
        else dcall fault (addContainer cname (mkLabels chName team host iid startedAt expiresAt) nets) pI.1
      if !pC.2 then (pC.1, created, false)
      else createLoop cfg fault chName team host iid startedAt expiresAt svcN egN rest pC.1 (created ++ [cname])

def setRunning (cname : String) (d : DaemonState) : DaemonState :=
  { d with containers := d.containers.map (fun c =>
      if c.name == cname then { c with running := true } else c) }

/-- Step 4: start every created container (gathered; modelled in order). -/
def startLoop (fault : Nat → Bool) : List String → Exec → Exec × Bool
  | [], e => (e, true)
  | n :: rest, e =>
    let p := dcall fault (setRunning n) e
    if !p.2 then p
    else startLoop fault rest p.1

/-- The rollback of `start_instance`: `_cleanup_containers` on the tracked
containers, then `_cleanup_networks` on the tracked network names. -/
def rollback (d : DaemonState) (created nets : List String) : DaemonState :=
  cleanupNetworksRun (cleanupContainersRun d created) nets

/-- `start_instance`.  `iid` is the fresh random instance id, `now` the
timestamp; `acquired` is the lock outcome and `fault` the daemon fault
schedule.  Any failure in steps 2-4 triggers rollback of the *tracked*
containers and networks before the error propagates.  On a timed-out
acquire the body's `NOT_ACQUIRED_ERROR` (400) is superseded by the redis
`LockError` from the unconditional release in `instance_lock`'s `finally`,
so the call surfaces `lockRelease`, not the 400. -/
def startInstance (cfg : Cfg) (catalog : String → Option Challenge) (fault : Nat → Bool)
    (acquired listFails : Bool) (chName team iid : String) (now : Int) (s : DaemonState) :
    DaemonState × Except OpError InstanceOut :=
  match catalog chName with
  | none => (s, .error (.http challengeNotFoundError))
  | some ch =>
    if !acquired then (s, .error .lockRelease)
    else if isRunning listFails s chName team then (s, .error (.http alreadyRunningError))
    else
      let startedAt := now
      let expiresAt := now + ch.timeout
      let host := hostName cfg ch iid
      let svcN := svcNetName cfg chName team iid
      let egN := egNetName cfg chName team iid
      let p1 := ensureNetwork cfg fault svcN true expiresAt ⟨s, 0⟩
      if !p1.2 then (rollback p1.1.d [] [], .error (.http startFailedError))
      else
        let q :=
          if ch.containers.any (fun c => c.egress) then
            let p2 := ensureNetwork cfg fault egN false expiresAt p1.1
            (p2.1, if p2.2 then [svcN, egN] else [svcN], p2.2)
          else (p1.1, [svcN], true)
        if !q.2.2 then (rollback q.1.d [] q.2.1, .error (.http startFailedError))
        else
          let r := createLoop cfg fault chName team host iid startedAt expiresAt svcN egN ch.containers q.1 []
          if !r.2.2 then (rollback r.1.d r.2.1 q.2.1, .error (.http startFailedError))
          else
            let t := startLoop fault r.2.1 r.1
            if !t.2 then (rollback t.1.d r.2.1 q.2.1, .error (.http startFailedError))
            else (t.1.d, .ok ⟨.starting, ch.timeout, getEndpoints cfg ch (some host),
              some (expiresAt - now)⟩)

/-! ### The pruner (`_prune_instances`, `_prune_networks`) -/

/-- One iteration of the `_prune_instances` loop for the snapshot container
named `cname`: re-inspect it (a vanished container is skipped), skip it if
unexpired, otherwise stop its `(challenge, team_id)` key.  Stop errors are
caught and logged; the pruner holds no lock conflict here (modelled as an
acquired lock). -/
def pruneStep (cfg : Cfg) (catalog : String → Option Challenge) (now : Int)
    (st : DaemonState) (cname : String) : DaemonState :=
  match st.containers.find? (fun c => c.name == cname) with
  | none => st
  | some c =>
    if c.labels.expiresAt > now then st
    else (stopInstance cfg catalog true false c.labels.challenge c.labels.teamId st).1

/-- `_prune_instances`: snapshot the managed containers, then iterate. -/
def pruneInstances (cfg : Cfg) (catalog : String → Option Challenge) (now : Int)
    (s : DaemonState) : DaemonState :=
  ((s.containers.filter (fun c => c.labels.managed)).map (fun c => c.name)).foldl
    (pruneStep cfg catalog now) s

/-- `_prune_networks`: list managed networks, read `expires_at` through a
label-preserving inspect, keep the expired ones and run the network cleanup
on them. -/
def pruneNetworks (cfg : Cfg) (now : Int) (s : DaemonState) : DaemonState :=
  let names := ((s.networks.filter (fun n => n.managed)).filter
    (fun n => !(n.expiresAt > now))).map (fun n => n.name)
  cleanupNetworksRun s names

/-- One tick of `instance_prunner`: instances first, then networks. -/
def prunerTick (cfg : Cfg) (catalog : String → Option Challenge) (now : Int)
    (s : DaemonState) : DaemonState :=
  pruneNetworks cfg now (pruneInstances cfg catalog now s)

/-- Observation of one key's containers: name, labels and running state of
every container matching the key filter (network attachments are not part of
the observation).  Used to state that an operation leaves a key's containers
untouched. -/
def snapshotKey (chName team : String) (s : DaemonState) : List (String × MLabels × Bool) :=
  (s.containers.filter (hasKey chName team)).map (fun c => (c.name, c.labels, c.running))

/-! ## The per-key instance lock (`instancer/core/cache.py`)

`instance_lock` wraps a Redis distributed lock: `acquire` blocks up to the
blocking timeout and yields whether the lock was obtained; the body runs only
on `true`; the `finally` *unconditionally* awaits `lock.release()`.  When the
acquire timed out no token is held, so while the guard raises
`NOT_ACQUIRED_ERROR` (400), the release in the `finally` raises the redis
`LockError("Cannot release an unlocked lock")`, which supersedes the 400 —
the operation surfaces the `LockError` (a 500).  The protocol of two workers
racing on the *same* `(challenge, team)` key is modelled as an interleaving
transition system; the atomic set-if-absent of the coordinator is the
`acquireOk` rule.  The lease-expiry escape hatch (a body outliving
`REDIS_LOCK_TIMEOUT_SECONDS`) is real-time behaviour outside this model. -/

inductive LockPhase where
  | idle
  | body (k : Nat)
  | finished
  /-- The blocking acquire returned `False`; `NOT_ACQUIRED_ERROR` (400) was
  raised by the guard and is in flight. -/
  | timedOut
  /-- The `finally` ran `lock.release()` on the never-acquired lock; the
  redis `LockError` superseded the in-flight 400 and is what the worker's
  call surfaces. -/
  | releaseFailed
deriving DecidableEq, Repr

structure LockSys where
  holder : Option (Fin 2)
  ph : Fin 2 → LockPhase

def lockInit : LockSys := ⟨none, fun _ => .idle⟩

/-- Interleaved steps of two operations (each a `start_instance` or
`stop_instance` body of `bodyLen` daemon calls) on the same key. -/
inductive LockStep (bodyLen : Nat) : LockSys → LockSys → Prop where
  | acquireOk (s : LockSys) (i : Fin 2) :
      s.ph i = .idle → s.holder = none →
      LockStep bodyLen s ⟨some i, Function.update s.ph i (.body 0)⟩
  | acquireTimeout (s : LockSys) (i j : Fin 2) :
      s.ph i = .idle → s.holder = some j → j ≠ i →
      LockStep bodyLen s ⟨s.holder, Function.update s.ph i .timedOut⟩
  | bodyStep (s : LockSys) (i : Fin 2) (k : Nat) :
      s.ph i = .body k → k + 1 ≤ bodyLen →
      LockStep bodyLen s ⟨s.holder, Function.update s.ph i (.body (k + 1))⟩
  | release (s : LockSys) (i : Fin 2) :
      s.ph i = .body bodyLen →
      LockStep bodyLen s ⟨none, Function.update s.ph i .finished⟩
  | failedRelease (s : LockSys) (i : Fin 2) :
      s.ph i = .timedOut →
      LockStep bodyLen s ⟨s.holder, Function.update s.ph i .releaseFailed⟩

def lockReachable (bodyLen : Nat) (s : LockSys) : Prop :=
  Relation.ReflTransGen (LockStep bodyLen) lockInit s

/-- The exception in flight inside the body guard after a timed-out acquire:
`if not acquired: raise NOT_ACQUIRED_ERROR` — before the `finally` runs. -/
def inflightError : LockPhase → Option HTTPError
  | .timedOut => some notAcquiredError
  | _ => none

/-- What a worker's call ultimately surfaces: after the `finally`'s failed
release, the redis `LockError` (a 500), having superseded the 400. -/
def lockOutcome : LockPhase → Option OpError
  | .releaseFailed => some .lockRelease
  | _ => none

/-- Worker 0 holds the lock and is in its body. -/
def lockS1 : LockSys := ⟨some 0, Function.update lockInit.ph 0 (.body 0)⟩

/-- Worker 1's blocking acquire timed out while worker 0 held the lock. -/
def lockS2 : LockSys := ⟨lockS1.holder, Function.update lockS1.ph 1 .timedOut⟩

/-- Worker 1's `finally` released the never-acquired lock and the redis
`LockError` superseded its 400. -/
def lockS3 : LockSys := ⟨lockS2.holder, Function.update lockS2.ph 1 .releaseFailed⟩

/-! ## Concrete fixtures used by counterexamples and witnesses -/

def cfgX : Cfg := ⟨"ti", 80, 443, 1337, "example.org", "ti-traefik"⟩

def appC : Container := { name := "app", image := "demo:1" }

def web1 : Challenge := ⟨"web1", 900, [appC], []⟩

def catX : String → Option Challenge := fun n => if n == "web1" then some web1 else none

/-- A challenge whose only container has `cpu = "0"` (parses to 0 nano-CPUs). -/
def chZeroCpu : Challenge :=
  ⟨"zcpu", 900, [{ name := "app", image := "demo:1", limits := { cpu := "0" } }], []⟩

/-- A challenge with two containers sharing the name `app`. -/
def chDupNames : Challenge := ⟨"dup1", 900, [appC, appC], []⟩

/-- A challenge whose expose references a container that does not exist. -/
def chBadExpose : Challenge := ⟨"bad1", 900, [appC], [⟨.http, "nope", 80⟩]⟩

def chGoodA : Challenge := ⟨"good-a", 900, [appC], []⟩

def chGoodB : Challenge := ⟨"good-b", 900, [appC], []⟩

/-- A managed container for `(web1, team-a)` whose `expires_at` label is 0. -/
def sExpiresZero : DaemonState :=
  ⟨[⟨"ti-web1-team-a-app", ⟨true, "web1", "team-a", "h.example.org", "abc", 0, 0⟩, false, []⟩], [], []⟩

/-- A running managed container for `(web1, team-b)` whose hostname label is
the empty string. -/
def sEmptyHost : DaemonState :=
  ⟨[⟨"ti-web1-team-b-app", ⟨true, "web1", "team-b", "", "abd", 0, 90⟩, true, []⟩], [], []⟩

/-- Two managed containers of the same `(web1, t1)` key: container `a` is
expired at tick time 50, container `b` is not. -/
def sMixedExpiry : DaemonState :=
  ⟨[⟨"a", ⟨true, "web1", "t1", "h", "i1", 0, 10⟩, true, []⟩,
    ⟨"b", ⟨true, "web1", "t1", "h", "i2", 0, 100⟩, true, []⟩], [], []⟩

/-- A wholly unexpired state at tick time 50: one managed running container
of key `(web1, t1)` and one managed network, both expiring at 100. -/
def sUnexpired : DaemonState :=
  ⟨[⟨"c", ⟨true, "web1", "t1", "h", "i", 0, 100⟩, true, ["ti-svc-x"]⟩],
   [⟨"ti-svc-x", true, 100, true, []⟩], []⟩

/-! # Theorems -/

/-! ## Catalog loading helpers -/

theorem loadChallenges_single (d : Challenge) (h : challengeValidate d = true) :
    catLookup (loadChallenges [d]) d.name = some d := by
  simp [loadChallenges, catInsert, catLookup, h]

/-- Claim C1 (code bug, failing input): start `web1` for `team-a` with a fault
schedule under which the service-network creation succeeds but the subsequent
traefik connect raises a non-409 daemon error.  `_ensure_network` raises
*after* creating the network and *before* `start_instance` appends it to
`networks_created`, so the rollback tracks nothing and the managed network
`ti-svc-web1-team-a-abc123` survives the failure — the claim demands that
zero managed networks bearing the `(challenge, team, instance_id)` tuple
remain after the failure returns. -/
theorem C1_start_rollback_leaks_network_on_connect_failure :
    startInstance cfgX catX (fun i => i == 1) true false "web1" "team-a" "abc123" 1000 ⟨[], [], []⟩ =
      (⟨[], [⟨"ti-svc-web1-team-a-abc123", true, 1900, true, []⟩], []⟩,
       .error (.http startFailedError)) ∧
    svcNetName cfgX "web1" "team-a" "abc123" = "ti-svc-web1-team-a-abc123" ∧
    (⟨"ti-svc-web1-team-a-abc123", true, 1900, true, []⟩ : DNetwork).managed = true := by
  decide

/-- Claim C4 (counterexample): the challenge `zcpu` has a container whose
`limits.cpu = "0"` parses to `0` nano-CPUs — not strictly positive — yet the
document validates and yields a Challenge in the loaded catalog. -/
theorem C4_counterexample :
    nanoCpus "0" = some 0 ∧ ¬(0 < (0 : Int)) ∧
    (chZeroCpu.containers.map (fun c => c.limits.cpu)) = ["0"] ∧
    catLookup (loadChallenges [chZeroCpu]) "zcpu" = some chZeroCpu := by
  decide

/-- Claim C4 (amended): catalog validation does *not* reject non-positive
parsed limits (it only logs a warning); a document whose names, limit parses
and expose references check out yields a Challenge in the loaded catalog even
when a container's memory or cpu parses to a value `≤ 0`.  Only documents
whose limits fail to parse are rejected. -/
theorem C4_amended_nonpositive_limits_load (d : Challenge) (v : Int)
    (hval : challengeValidate d = true)
    (hnp : ∃ c ∈ d.containers,
      (memoryBytes c.limits.memory = some v ∧ v ≤ 0) ∨
      (nanoCpus c.limits.cpu = some v ∧ v ≤ 0)) :
    catLookup (loadChallenges [d]) d.name = some d :=
  loadChallenges_single d hval

theorem C4_witness :
    catLookup (loadChallenges [chZeroCpu]) chZeroCpu.name = some chZeroCpu :=
  C4_amended_nonpositive_limits_load chZeroCpu 0 (by decide)
    ⟨{ name := "app", image := "demo:1", limits := { cpu := "0" } }, by decide, by decide⟩

/-- Claim C5 (counterexample): the challenge `dup1` contains two containers
both named `app`; it validates and is present in the loaded catalog, so
container names are *not* unique within every loaded Challenge. -/
theorem C5_counterexample :
    (chDupNames.containers.map (fun c => c.name)) = ["app", "app"] ∧
    catLookup (loadChallenges [chDupNames]) "dup1" = some chDupNames := by
  decide

/-- Claim C5 (amended): catalog validation never checks container-name
uniqueness; a document in which two containers share a name still yields a
Challenge in the loaded catalog, provided the name-grammar, limit-parsing and
expose checks pass. -/
theorem C5_amended_duplicate_names_load (d : Challenge)
    (hval : challengeValidate d = true)
    (hdup : ¬ (d.containers.map (fun c => c.name)).Nodup) :
    catLookup (loadChallenges [d]) d.name = some d :=
  loadChallenges_single d hval

theorem C5_witness :
    catLookup (loadChallenges [chDupNames]) chDupNames.name = some chDupNames :=
  C5_amended_duplicate_names_load chDupNames (by decide) (by decide)

/-- Claim C6: a challenge document whose `expose` references a container name
absent from its `containers` fails validation at load, and the catalog loaded
from the stream is exactly the catalog of the stream without that document —
every other document still loads. -/
theorem C6_bad_expose_rejected_others_load (pre post : List Challenge) (d : Challenge)
    (hbad : hasUnknownExposeRef d = true) :
    challengeValidate d = false ∧
    loadChallenges (pre ++ d :: post) = loadChallenges (pre ++ post) := by
  have hv : challengeValidate d = false := by
    rcases List.any_eq_true.mp hbad with ⟨e, he, hne⟩
    have hall : d.expose.all (fun e => d.containers.any (fun c => c.name == e.container_name)) = false := by
      cases hcase : d.expose.all (fun e => d.containers.any (fun c => c.name == e.container_name)) with
      | false => rfl
      | true =>
        have := List.all_eq_true.mp hcase e he
        simp [this] at hne
    rw [challengeValidate, hall, Bool.and_false]
  refine ⟨hv, ?_⟩
  simp [loadChallenges, List.foldl_append, hv]

theorem C6_witness :
    challengeValidate chBadExpose = false ∧
    loadChallenges ([chGoodA] ++ chBadExpose :: [chGoodB]) = loadChallenges ([chGoodA] ++ [chGoodB]) :=
  C6_bad_expose_rejected_others_load [chGoodA] [chGoodB] chBadExpose (by decide)

/-- Claim C7 (code bug, failing input): a stop or start of `web1` whose
blocking lock acquire times out (`acquired = false`).  The body is indeed
not run — the daemon state is returned untouched, no daemon operation is
performed, no resource created or removed — but the surfaced error is not
the claimed 400 client error: `instance_lock`'s `finally` unconditionally
awaits `lock.release()`, releasing the never-acquired lock raises the redis
`LockError("Cannot release an unlocked lock")`, and that exception
supersedes the in-flight `NOT_ACQUIRED_ERROR`, surfacing as HTTP 500. -/
theorem C7_lock_timeout_surfaces_lock_error :
    stopInstance cfgX catX false false "web1" "t1" sMixedExpiry =
      (sMixedExpiry, .error .lockRelease) ∧
    startInstance cfgX catX (fun _ => false) false false "web1" "t1" "i1" 0 sMixedExpiry =
      (sMixedExpiry, .error .lockRelease) ∧
    (Except.error .lockRelease : Except OpError InstanceOut) ≠
      .error (.http ⟨400, "Another instance operation is in progress."⟩) := by
  decide

/-- Claim C10: when the daemon's container-list call fails with a daemon
error, `get_containers` swallows the error and returns `[]`; consequently,
for that key, status reports STOPPED with null endpoints and null remaining
time, stop fails with 404 `Instance not found`, and start's already-running
pre-check (`is_running`) passes — even on a state whose containers for the
key actually exist. -/
theorem C10_list_failure_consequences (cfg : Cfg) (catalog : String → Option Challenge)
    (ch : Challenge) (chName team : String) (now : Int) (s : DaemonState)
    (hch : catalog chName = some ch) :
    getContainers true s chName team false = [] ∧
    getInstance cfg catalog true now chName team s =
      .ok ⟨.stopped, ch.timeout, none, none⟩ ∧
    stopInstance cfg catalog true true chName team s =
      (s, .error (.http instanceNotFoundError)) ∧
    instanceNotFoundError = ⟨404, "Instance not found"⟩ ∧
    isRunning true s chName team = false := by
  refine ⟨rfl, ?_, ?_, rfl, rfl⟩
  · simp [getInstance, getContainers, getEndpoints, hch]
  · simp [stopInstance, getContainers]

theorem C10_witness :
    getContainers true sMixedExpiry "web1" "t1" false = [] ∧
    getInstance cfgX catX true 50 "web1" "t1" sMixedExpiry =
      .ok ⟨.stopped, web1.timeout, none, none⟩ ∧
    stopInstance cfgX catX true true "web1" "t1" sMixedExpiry =
      (sMixedExpiry, .error (.http instanceNotFoundError)) ∧
    instanceNotFoundError = ⟨404, "Instance not found"⟩ ∧
    isRunning true sMixedExpiry "web1" "t1" = false :=
  C10_list_failure_consequences cfgX catX web1 "web1" "t1" 50 sMixedExpiry (by decide)

/-- Claim C8 (counterexample): a managed container for `(web1, team-a)`
carries the label `expires_at = 0` — the label exists — yet `get_instance`
reports `remaining_time = null` instead of `max(0, 0 - 5) = 0`, because the
code's truthiness test `if expires_at` conflates the value 0 with absence. -/
theorem C8_counterexample :
    (sExpiresZero.containers.map (fun c => c.labels.expiresAt)) = [0] ∧
    getInstance cfgX catX false 5 "web1" "team-a" sExpiresZero =
      .ok ⟨.starting, 900, some [], none⟩ ∧
    max 0 ((0 : Int) - 5) = 0 ∧ (none : Option Int) ≠ some 0 := by
  decide

/-- Claim C8 (amended): on a known challenge, `get_instance` with no managed
container for the key reports STOPPED with null endpoints and null remaining
time; otherwise it samples the first listed container and reports RUNNING
iff the daemon reports it running (else STARTING), endpoints built from the
hostname label whenever that label is *nonempty* — an empty hostname label
yields null endpoints, via `_get_endpoints`' `if host` truthiness, the same
conflation corrected for `expires_at` — and
`remaining_time = max(0, expires_at - now)` whenever the `expires_at` label
value is nonzero; a label value of 0 yields null. -/
theorem C8_amended_status_report (cfg : Cfg) (catalog : String → Option Challenge)
    (ch : Challenge) (now : Int) (chName team : String) (s : DaemonState)
    (hch : catalog chName = some ch) :
    (getContainers false s chName team false = [] →
      getInstance cfg catalog false now chName team s =
        .ok ⟨.stopped, ch.timeout, none, none⟩) ∧
    (∀ c rest, getContainers false s chName team false = c :: rest →
      getInstance cfg catalog false now chName team s =
        .ok ⟨if c.running then .running else .starting, ch.timeout,
             if c.labels.hostname = "" then none
             else some (ch.expose.map (fun e =>
               ⟨e.kind, c.labels.hostname, exposeKindToPort cfg e.kind⟩)),
             if c.labels.expiresAt ≠ 0 then some (max 0 (c.labels.expiresAt - now))
             else none⟩) := by
  constructor
  · intro h
    simp [getInstance, h, getEndpoints, hch]
  · intro c rest h
    simp [getInstance, h, hch, getEndpoints]

theorem C8_witness :
    (getInstance cfgX catX false 5 "web1" "nobody" ⟨[], [], []⟩ =
      .ok ⟨.stopped, web1.timeout, none, none⟩) ∧
    (getInstance cfgX catX false 5 "web1" "team-a" sExpiresZero =
      .ok ⟨if false then .running else .starting, web1.timeout,
           if "h.example.org" = "" then none
           else some (web1.expose.map (fun e =>
             ⟨e.kind, "h.example.org", exposeKindToPort cfgX e.kind⟩)),
           if (0 : Int) ≠ 0 then some (max 0 ((0 : Int) - 5)) else none⟩) ∧
    (getInstance cfgX catX false 7 "web1" "team-b" sEmptyHost =
      .ok ⟨if true then .running else .starting, web1.timeout,
           if "" = "" then none
           else some (web1.expose.map (fun e =>
             ⟨e.kind, "", exposeKindToPort cfgX e.kind⟩)),
           if (90 : Int) ≠ 0 then some (max 0 ((90 : Int) - 7)) else none⟩) :=
  ⟨(C8_amended_status_report cfgX catX web1 5 "web1" "nobody" ⟨[], [], []⟩ (by decide)).1 (by decide),
   (C8_amended_status_report cfgX catX web1 5 "web1" "team-a" sExpiresZero (by decide)).2
     ⟨"ti-web1-team-a-app", ⟨true, "web1", "team-a", "h.example.org", "abc", 0, 0⟩, false, []⟩
     [] (by decide),
   (C8_amended_status_report cfgX catX web1 7 "web1" "team-b" sEmptyHost (by decide)).2
     ⟨"ti-web1-team-b-app", ⟨true, "web1", "team-b", "", "abd", 0, 90⟩, true, []⟩
     [] (by decide)⟩

/-! ## Pruner helpers -/

theorem keyTriples_map_strip (chName team : String) (f : DContainer → DContainer)
    (hf : ∀ c, (f c).name = c.name ∧ (f c).labels = c.labels ∧ (f c).running = c.running)
    (l : List DContainer) :
    ((l.map f).filter (hasKey chName team)).map (fun c => (c.name, c.labels, c.running)) =
      (l.filter (hasKey chName team)).map (fun c => (c.name, c.labels, c.running)) := by
  induction l with
  | nil => rfl
  | cons c l ih =>
    rcases hf c with ⟨h1, h2, h3⟩
    have hk : hasKey chName team (f c) = hasKey chName team c := by
      simp [hasKey, h2]
    simp only [List.map_cons, List.filter_cons, hk]
    cases hasKey chName team c
    · simpa using ih
    · simp [h1, h2, h3, ih]

theorem snapshotKey_cleanupOneNetwork (chName team n : String) (d : DaemonState) :
    snapshotKey chName team (cleanupOneNetwork d n) = snapshotKey chName team d := by
  simp only [snapshotKey, cleanupOneNetwork]
  exact keyTriples_map_strip chName team
    (fun c => { c with networks := c.networks.filter (fun x => !(x == n)) })
    (fun c => ⟨rfl, rfl, rfl⟩) d.containers

theorem snapshotKey_cleanupNetworksRun (chName team : String) (names : List String)
    (d : DaemonState) :
    snapshotKey chName team (cleanupNetworksRun d names) = snapshotKey chName team d := by
  induction names generalizing d with
  | nil => rfl
  | cons n ns ih =>
    unfold cleanupNetworksRun at ih ⊢
    simp only [List.foldl_cons]
    cases h : d.networks.any (fun x => x.name == n) with
    | false => simpa [h] using ih d
    | true => simpa [h] using (ih (cleanupOneNetwork d n)).trans (snapshotKey_cleanupOneNetwork chName team n d)

theorem hasKey_unique (a b a' b' : String) (c : DContainer)
    (h1 : hasKey a b c = true) (h2 : hasKey a' b' c = true) : a = a' ∧ b = b' := by
  simp only [hasKey, Bool.and_eq_true, beq_iff_eq] at h1 h2
  exact ⟨h1.1.2.symm.trans h2.1.2, h1.2.symm.trans h2.2⟩

theorem keyTriples_filter_other (chName team ch' t' : String)
    (hne : ¬(chName = ch' ∧ team = t')) (l : List DContainer) :
    ((l.filter (fun c => !(hasKey ch' t' c))).filter (hasKey chName team)).map
        (fun c => (c.name, c.labels, c.running)) =
      (l.filter (hasKey chName team)).map (fun c => (c.name, c.labels, c.running)) := by
  induction l with
  | nil => rfl
  | cons c l ih =>
    cases hk : hasKey chName team c with
    | false =>
      cases hk' : hasKey ch' t' c with
      | false => simp [List.filter_cons, hk, hk', ih, -List.filter_filter]
      | true => simp [List.filter_cons, hk, hk', ih, -List.filter_filter]
    | true =>
      have hk' : hasKey ch' t' c = false := by
        cases hcase : hasKey ch' t' c with
        | false => rfl
        | true => exact absurd (hasKey_unique chName team ch' t' c hk hcase) hne
      simp [List.filter_cons, hk, hk', ih, -List.filter_filter]

theorem snapshotKey_stopRun (cfg : Cfg) (chName team ch' t' : String) (s : DaemonState)
    (cs : List DContainer) (hne : ¬(chName = ch' ∧ team = t')) :
    snapshotKey chName team (stopRun cfg s ch' t' cs).1 = snapshotKey chName team s := by
  unfold stopRun
  have hs1 : ∀ nets : List String,
      snapshotKey chName team
        { s with containers := s.containers.filter (fun c => !(hasKey ch' t' c)) } =
      snapshotKey chName team s := fun _ =>
    keyTriples_filter_other chName team ch' t' hne s.containers
  cases hall : (dedupStr (cs.foldl (fun acc c =>
      acc ++ c.networks.filter (fun n => pyStartsWith n (cfg.pfx ++ "-"))) [])).all
      (fun n => ({ s with containers := s.containers.filter (fun c => !(hasKey ch' t' c)) }).networks.any
        (fun x => x.name == n)) with
  | false => simpa [hall] using hs1 []
  | true =>
    simp only [hall, if_true]
    exact (snapshotKey_cleanupNetworksRun chName team _ _).trans (hs1 [])

theorem snapshotKey_stopInstance (cfg : Cfg) (catalog : String → Option Challenge)
    (ac lf : Bool) (ch' t' chName team : String) (s : DaemonState)
    (hne : ¬(chName = ch' ∧ team = t')) :
    snapshotKey chName team (stopInstance cfg catalog ac lf ch' t' s).1 =
      snapshotKey chName team s := by
  unfold stopInstance
  cases ac with
  | false => rfl
  | true =>
    cases hemp : (getContainers lf s ch' t' false).isEmpty with
    | true => simp [hemp]
    | false =>
      have hrun := snapshotKey_stopRun cfg chName team ch' t' s
        (getContainers lf s ch' t' false) hne
      cases h2 : (stopRun cfg s ch' t' (getContainers lf s ch' t' false)).2 with
      | false => simpa [hemp, h2] using hrun
      | true =>
        cases hcat : catalog ch' with
        | none => simpa [hemp, h2, hcat] using hrun
        | some ch => simpa [hemp, h2, hcat] using hrun

theorem mem_cleanupNetworksRun_containers (names : List String) (d : DaemonState) :
    ∀ c' ∈ (cleanupNetworksRun d names).containers, ∃ c ∈ d.containers, c'.labels = c.labels := by
  induction names generalizing d with
  | nil => exact fun c' h => ⟨c', h, rfl⟩
  | cons n ns ih =>
    intro c' h
    unfold cleanupNetworksRun at h
    simp only [List.foldl_cons] at h
    cases hcase : d.networks.any (fun x => x.name == n) with
    | false =>
      rw [hcase] at h
      simp only [if_neg Bool.false_ne_true] at h
      exact ih d c' h
    | true =>
      rw [hcase, if_pos rfl] at h
      rcases ih (cleanupOneNetwork d n) c' h with ⟨c0, hc0, heq⟩
      rcases List.mem_map.mp hc0 with ⟨c1, hc1, hmap⟩
      exact ⟨c1, hc1, heq.trans (by rw [← hmap])⟩

theorem mem_stopInstance_containers (cfg : Cfg) (catalog : String → Option Challenge)
    (ac lf : Bool) (ch' t' : String) (s : DaemonState) :
    ∀ c' ∈ (stopInstance cfg catalog ac lf ch' t' s).1.containers,
      ∃ c ∈ s.containers, c'.labels = c.labels := by
  have hrun : ∀ c' ∈ (stopRun cfg s ch' t' (getContainers lf s ch' t' false)).1.containers,
      ∃ c ∈ s.containers, c'.labels = c.labels := by
    unfold stopRun
    cases hall : (dedupStr ((getContainers lf s ch' t' false).foldl (fun acc c =>
        acc ++ c.networks.filter (fun n => pyStartsWith n (cfg.pfx ++ "-"))) [])).all
        (fun n => ({ s with containers := s.containers.filter (fun c => !(hasKey ch' t' c)) }).networks.any
          (fun x => x.name == n)) with
    | false =>
      simp only [hall, if_neg Bool.false_ne_true]
      exact fun c' h => ⟨c', List.mem_of_mem_filter h, rfl⟩
    | true =>
      simp only [hall, if_pos rfl]
      intro c' h
      rcases mem_cleanupNetworksRun_containers _ _ c' h with ⟨c0, hc0, heq⟩
      exact ⟨c0, List.mem_of_mem_filter hc0, heq⟩
  unfold stopInstance
  cases ac with
  | false => exact fun c' h => ⟨c', h, rfl⟩
  | true =>
    cases hemp : (getContainers lf s ch' t' false).isEmpty with
    | true => simp only [hemp]; exact fun c' h => ⟨c', h, rfl⟩
    | false =>
      cases h2 : (stopRun cfg s ch' t' (getContainers lf s ch' t' false)).2 with
      | false => simpa [hemp, h2] using hrun
      | true =>
        cases hcat : catalog ch' with
        | none => simpa [hemp, h2, hcat] using hrun
        | some ch => simpa [hemp, h2, hcat] using hrun

theorem pruneFold_preserves (cfg : Cfg) (catalog : String → Option Challenge) (now : Int)
    (chName team : String) (names : List String) :
    ∀ st : DaemonState,
    (∀ c ∈ st.containers, c.labels.challenge = chName → c.labels.teamId = team →
      c.labels.expiresAt > now) →
    snapshotKey chName team (names.foldl (pruneStep cfg catalog now) st) =
      snapshotKey chName team st := by
  induction names with
  | nil => exact fun st _ => rfl
  | cons n ns ih =>
    intro st H
    simp only [List.foldl_cons]
    have hstep : snapshotKey chName team (pruneStep cfg catalog now st n) = snapshotKey chName team st ∧
        (∀ c ∈ (pruneStep cfg catalog now st n).containers,
          c.labels.challenge = chName → c.labels.teamId = team → c.labels.expiresAt > now) := by
      unfold pruneStep
      cases hfind : st.containers.find? (fun c => c.name == n) with
      | none => exact ⟨rfl, H⟩
      | some c =>
        by_cases hexp : c.labels.expiresAt > now
        · simp only [if_pos hexp]
          exact ⟨by trivial, H⟩
        · simp only [if_neg hexp]
          have hc : c ∈ st.containers := List.mem_of_find?_eq_some hfind
          have hkey : ¬(chName = c.labels.challenge ∧ team = c.labels.teamId) := by
            rintro ⟨h1, h2⟩
            exact hexp (H c hc h1.symm h2.symm)
          refine ⟨snapshotKey_stopInstance cfg catalog true false _ _ chName team st hkey, ?_⟩
          intro c' h' hch ht
          rcases mem_stopInstance_containers cfg catalog true false _ _ st c' h' with ⟨c0, hc0, heq⟩
          rw [heq] at hch ht ⊢
          exact H c0 hc0 hch ht
    exact (ih _ hstep.2).trans hstep.1

theorem mem_networks_cleanupNetworksRun (names : List String) :
    ∀ (d : DaemonState) (n : DNetwork), n ∈ d.networks → n.name ∉ names →
      n ∈ (cleanupNetworksRun d names).networks := by
  induction names with
  | nil => exact fun d n hn _ => hn
  | cons m ms ih =>
    intro d n hn hname
    have hne : ¬(n.name = m) := fun h => hname (by simp [h])
    have htail : n.name ∉ ms := fun h => hname (List.mem_cons_of_mem m h)
    unfold cleanupNetworksRun at ih ⊢
    simp only [List.foldl_cons]
    cases hcase : d.networks.any (fun x => x.name == m) with
    | false =>
      simp only [if_neg Bool.false_ne_true]
      exact ih d n hn htail
    | true =>
      simp only [if_pos rfl]
      refine ih (cleanupOneNetwork d m) n ?_ htail
      unfold cleanupOneNetwork
      exact List.mem_filter.mpr ⟨hn, by simp [hne]⟩

/-- Claim C9 (counterexample): at tick time 50 the state holds two managed
containers of the same `(web1, t1)` key — `a` expired at 10, `b` unexpired
until 100.  The pruner, on reaching `a`, invokes stop for the key, and that
stop force-deletes *all* of the key's containers: after the tick `b` is gone
even though its `expires_at` label (100) is strictly greater than `now` (50),
so an unexpired managed container is reclaimed and stop *is* invoked for its
key on that tick. -/
theorem C9_counterexample :
    (sMixedExpiry.containers.map (fun c => (c.name, c.labels.expiresAt))) =
      [("a", 10), ("b", 100)] ∧
    (100 : Int) > 50 ∧
    (prunerTick cfgX catX 50 sMixedExpiry).containers = [] := by
  decide

/-- Claim C9 (amended): on a pruner tick at time `now`, a managed container is
never *selected* for stopping while unexpired and the network-pruning pass
never touches an unexpired network: (1) if every container of a key carries
`expires_at > now`, the tick leaves that key's containers (names, labels,
running state) unchanged; (2) a network none of whose same-named managed
occurrences is expired survives the network-pruning pass untouched.  However
— the correction — a stop triggered by an *expired* container removes all
containers and attached prefix-named networks of its key, unexpired or not,
as the counterexample shows. -/
theorem C9_amended_pruner_skips_unexpired :
    (∀ (cfg : Cfg) (catalog : String → Option Challenge) (now : Int)
        (chName team : String) (s : DaemonState),
      (∀ c ∈ s.containers, c.labels.challenge = chName → c.labels.teamId = team →
        c.labels.expiresAt > now) →
      snapshotKey chName team (prunerTick cfg catalog now s) = snapshotKey chName team s) ∧
    (∀ (cfg : Cfg) (now : Int) (s : DaemonState) (n : DNetwork), n ∈ s.networks →
      (∀ m ∈ s.networks, m.name = n.name → m.managed = true → m.expiresAt > now) →
      n ∈ (pruneNetworks cfg now s).networks) := by
  constructor
  · intro cfg catalog now chName team s H
    unfold prunerTick
    simp only [pruneNetworks]
    rw [snapshotKey_cleanupNetworksRun]
    unfold pruneInstances
    exact pruneFold_preserves cfg catalog now chName team _ s H
  · intro cfg now s n hn Hnames
    simp only [pruneNetworks]
    refine mem_networks_cleanupNetworksRun _ s n hn ?_
    intro hmem
    rcases List.mem_map.mp hmem with ⟨m, hm, hname⟩
    rcases List.mem_filter.mp hm with ⟨hm1, hexp⟩
    rcases List.mem_filter.mp hm1 with ⟨hmemS, hmng⟩
    have hgt := Hnames m hmemS hname (by simpa using hmng)
    simp only [Bool.not_eq_true', decide_eq_false_iff_not] at hexp
    exact hexp hgt

theorem C9_witness :
    snapshotKey "web1" "t1" (prunerTick cfgX catX 50 sUnexpired) =
      snapshotKey "web1" "t1" sUnexpired ∧
    (⟨"ti-svc-x", true, 100, true, []⟩ : DNetwork) ∈ (pruneNetworks cfgX 50 sUnexpired).networks :=
  ⟨C9_amended_pruner_skips_unexpired.1 cfgX catX 50 "web1" "t1" sUnexpired (by decide),
   C9_amended_pruner_skips_unexpired.2 cfgX 50 sUnexpired ⟨"ti-svc-x", true, 100, true, []⟩
     (by decide) (by decide)⟩

/-! ## Lock protocol helpers -/

theorem lockStep_inv {bodyLen : Nat} {s s' : LockSys} (hstep : LockStep bodyLen s s')
    (hinv : ∀ i k, s.ph i = .body k → s.holder = some i) :
    ∀ i k, s'.ph i = .body k → s'.holder = some i := by
  cases hstep with
  | acquireOk i hidle hnone =>
    intro j k hj
    dsimp only at hj ⊢
    by_cases hij : j = i
    · subst hij; rfl
    · rw [Function.update_noteq hij] at hj
      rw [hinv j k hj] at hnone
      cases hnone
  | acquireTimeout i j hidle hhold hne =>
    intro j' k hj'
    dsimp only at hj' ⊢
    by_cases hij : j' = i
    · subst hij; rw [Function.update_same] at hj'; cases hj'
    · rw [Function.update_noteq hij] at hj'
      exact hinv j' k hj'
  | bodyStep i k hbody hk =>
    intro j k' hj
    dsimp only at hj ⊢
    by_cases hij : j = i
    · subst hij; exact hinv j k hbody
    · rw [Function.update_noteq hij] at hj
      exact hinv j k' hj
  | release i hbody =>
    intro j k hj
    dsimp only at hj ⊢
    by_cases hij : j = i
    · subst hij; rw [Function.update_same] at hj; cases hj
    · rw [Function.update_noteq hij] at hj
      have h1 := hinv j k hj
      have h2 := hinv i bodyLen hbody
      rw [h1] at h2
      cases h2
      exact absurd rfl hij
  | failedRelease i htimed =>
    intro j k hj
    dsimp only at hj ⊢
    by_cases hij : j = i
    · subst hij; rw [Function.update_same] at hj; cases hj
    · rw [Function.update_noteq hij] at hj
      exact hinv j k hj

theorem lockReachable_inv (bodyLen : Nat) (s : LockSys) (h : lockReachable bodyLen s) :
    ∀ i k, s.ph i = .body k → s.holder = some i := by
  induction h with
  | refl => intro i k h; cases h
  | tail _ hstep ih => exact lockStep_inv hstep ih

/-- Claim C2 (counterexample): a reachable two-worker run in which worker 0
holds the lock through worker 1's whole blocking window.  Worker 1's attempt
never enters its body, but it does not fail with CONFLICT (400): after the
in-flight `NOT_ACQUIRED_ERROR` the `finally` releases the never-acquired
lock, the redis `LockError` supersedes the 400, and the attempt surfaces
that `LockError` (a 500). -/
theorem C2_counterexample :
    lockReachable 1 lockS3 ∧
    lockS3.ph 1 = .releaseFailed ∧
    lockOutcome (lockS3.ph 1) = some .lockRelease ∧
    lockOutcome (lockS3.ph 1) ≠
      some (.http ⟨400, "Another instance operation is in progress."⟩) := by
  refine ⟨?_, by decide, by decide, by decide⟩
  exact Relation.ReflTransGen.tail
    (Relation.ReflTransGen.tail
      (Relation.ReflTransGen.single (LockStep.acquireOk lockInit 0 rfl rfl))
      (LockStep.acquireTimeout lockS1 1 0 (by decide) rfl (by decide)))
    (LockStep.failedRelease lockS2 1 (by decide))

/-- Claim C2 (amended): in the interleaving model of two workers racing on
the same `(challenge, team)` key through `instance_lock`, every reachable
state has at most one worker inside a start/stop body — operations on the
same key are strictly serialized — and a worker whose blocking acquire timed
out never entered its body: its guard raises the 400 `NOT_ACQUIRED_ERROR`,
but the `finally`'s release of the never-acquired lock raises the redis
`LockError`, which supersedes the 400, so the second attempt surfaces the
`LockError` (HTTP 500), not CONFLICT. -/
theorem C2_lock_mutual_exclusion (bodyLen : Nat) (s : LockSys)
    (h : lockReachable bodyLen s) :
    (∀ i j ki kj, s.ph i = .body ki → s.ph j = .body kj → i = j) ∧
    (∀ i, s.ph i = .timedOut → inflightError (s.ph i) = some notAcquiredError) ∧
    (∀ i, s.ph i = .releaseFailed →
      lockOutcome (s.ph i) = some .lockRelease ∧
      lockOutcome (s.ph i) ≠ some (.http notAcquiredError)) := by
  have hinv := lockReachable_inv bodyLen s h
  refine ⟨?_, ?_, ?_⟩
  · intro i j ki kj hi hj
    have h1 := hinv i ki hi
    have h2 := hinv j kj hj
    rw [h1] at h2
    cases h2
    rfl
  · intro i hc
    rw [hc]
    rfl
  · intro i hc
    rw [hc]
    exact ⟨rfl, by decide⟩

theorem C2_witness :
    (∀ i j ki kj, lockS3.ph i = .body ki → lockS3.ph j = .body kj → i = j) ∧
    (∀ i, lockS3.ph i = .timedOut → inflightError (lockS3.ph i) = some notAcquiredError) ∧
    (∀ i, lockS3.ph i = .releaseFailed →
      lockOutcome (lockS3.ph i) = some .lockRelease ∧
      lockOutcome (lockS3.ph i) ≠ some (.http notAcquiredError)) :=
  C2_lock_mutual_exclusion 1 lockS3
    (Relation.ReflTransGen.tail
      (Relation.ReflTransGen.tail
        (Relation.ReflTransGen.single (LockStep.acquireOk lockInit 0 rfl rfl))
        (LockStep.acquireTimeout lockS1 1 0 (by decide) rfl (by decide)))
      (LockStep.failedRelease lockS2 1 (by decide)))

/-! ## Limit-parsing helpers (claim C3) -/

theorem strData_append (a b : String) : (a ++ b).data = a.data ++ b.data := by
  cases a; cases b; rfl

theorem digit_toLower {c : Char} (h : c.isDigit = true) : c.toLower = c := by
  simp only [Char.isDigit, Bool.and_eq_true, decide_eq_true_eq] at h
  unfold Char.toLower
  rw [if_neg]
  rintro ⟨h3, -⟩
  rcases h with ⟨-, h2⟩
  simp only [UInt32.le_def, BitVec.le_def] at h2
  simp only [Char.toNat, UInt32.toNat] at h3
  have h57 : ((57 : UInt32).toBitVec).toNat = 57 := rfl
  omega

theorem digit_ne {c t : Char} (h : c.isDigit = true) (ht : t.isDigit = false) : ¬(c = t) := by
  intro he
  rw [he, ht] at h
  cases h

theorem map_toLower_digits {l : List Char} (h : allDigits l = true) :
    l.map Char.toLower = l := by
  induction l with
  | nil => rfl
  | cons c cs ih =>
    simp only [allDigits, List.all_cons, Bool.and_eq_true] at h
    simp only [List.map_cons, digit_toLower h.1]
    rw [ih]
    simp [allDigits, h.2]

theorem pyLower_append (s : String) (t : List Char) (h : allDigits s.data = true) :
    pyLower ⟨s.data ++ t⟩ = ⟨s.data ++ t.map Char.toLower⟩ := by
  simp [pyLower, List.map_append, map_toLower_digits h]

theorem pyEndsWith_app (sd t : List Char) (suf : String) :
    pyEndsWith ⟨sd ++ t⟩ suf = suf.data.reverse.isPrefixOf (t.reverse ++ sd.reverse) := by
  show suf.data.reverse.isPrefixOf ((sd ++ t).reverse) = _
  rw [List.reverse_append]

theorem pyDropRight_app (sd t : List Char) : pyDropRight ⟨sd ++ t⟩ t.length = ⟨sd⟩ := by
  simp [pyDropRight, List.length_append, List.take_left']

theorem findSuffix_ki (sd : List Char) :
    memorySuffixes.find? (fun p => pyEndsWith ⟨sd ++ ['k', 'i']⟩ p.1) = some ("ki", 1024) := by
  simp [memorySuffixes, List.find?, pyEndsWith_app, List.isPrefixOf]

theorem findSuffix_digits (sd : List Char) (hne : sd ≠ []) (h : allDigits sd = true) :
    memorySuffixes.find? (fun p => pyEndsWith ⟨sd⟩ p.1) = none := by
  obtain ⟨d, r, hdr⟩ : ∃ d r, sd.reverse = d :: r := by
    cases hrev : sd.reverse with
    | nil => exact absurd (by simpa using congrArg List.reverse hrev) hne
    | cons d r => exact ⟨d, r, rfl⟩
  have hd : d.isDigit = true := by
    have hmem : d ∈ sd := by
      have : d ∈ sd.reverse := by rw [hdr]; exact List.mem_cons_self d r
      simpa using this
    exact List.all_eq_true.mp h d hmem
  have hb : ∀ t : Char, t.isDigit = false → (t == d) = false :=
    fun t ht => beq_eq_false_iff_ne.mpr fun he => absurd he.symm (digit_ne hd ht)
  simp [memorySuffixes, List.find?, pyEndsWith, hdr, List.isPrefixOf,
        hb 'b' rfl, hb 'k' rfl, hb 'i' rfl, hb 'm' rfl, hb 'g' rfl, hb 't' rfl]

theorem allDigits_false {l : List Char} {c : Char} (hc : c ∈ l) (h1 : c.isDigit = false) :
    allDigits l = false := by
  cases hall : allDigits l with
  | false => rfl
  | true => exact absurd (List.all_eq_true.mp hall c hc) (by simp [h1])

theorem breakDot_digits {l : List Char} (h : allDigits l = true) : breakDot l = (l, []) := by
  induction l with
  | nil => rfl
  | cons c cs ih =>
    simp only [allDigits, List.all_cons, Bool.and_eq_true] at h
    unfold breakDot
    rw [if_neg (digit_ne h.1 (by decide))]
    have := ih (by simp [allDigits, h.2])
    simp [this]

theorem parseDecimalCore_digits {l : List Char} (hne : l ≠ []) (h : allDigits l = true) :
    parseDecimalCore l = some ⟨(digitsToNat l : Int), 0⟩ := by
  unfold parseDecimalCore
  rw [breakDot_digits h]
  simp [hne, h]

theorem parseDecimal_digits {l : List Char} (hne : l ≠ []) (h : allDigits l = true) :
    parseDecimal ⟨l⟩ = some ⟨(digitsToNat l : Int), 0⟩ := by
  cases l with
  | nil => exact absurd rfl hne
  | cons c cs =>
    have hcd : c.isDigit = true := by
      simp only [allDigits, List.all_cons, Bool.and_eq_true] at h
      exact h.1
    simp only [parseDecimal]
    rw [if_neg (digit_ne hcd (by decide))]
    exact parseDecimalCore_digits hne h

theorem parsePyInt_digits {l : List Char} (hne : l ≠ []) (h : allDigits l = true) :
    parsePyInt ⟨l⟩ = some ((digitsToNat l : Int)) := by
  cases l with
  | nil => exact absurd rfl hne
  | cons c cs =>
    have hcd : c.isDigit = true := by
      simp only [allDigits, List.all_cons, Bool.and_eq_true] at h
      exact h.1
    simp only [parsePyInt]
    rw [if_neg (digit_ne hcd (by decide))]
    simp [h]

theorem breakDot_spec (l : List Char) :
    (breakDot l).1 ++ (breakDot l).2 = l ∧ (∀ c ∈ (breakDot l).1, ¬(c = '.')) ∧
    ((breakDot l).2 = [] ∨ ∃ t, (breakDot l).2 = '.' :: t) := by
  induction l with
  | nil =>
    refine ⟨rfl, ?_, Or.inl rfl⟩
    intro c hc
    cases hc
  | cons x xs ih =>
    unfold breakDot
    by_cases hx : x = '.'
    · rw [if_pos hx]
      subst hx
      exact ⟨rfl, by simp, Or.inr ⟨xs, rfl⟩⟩
    · rw [if_neg hx]
      dsimp only
      refine ⟨by rw [List.cons_append, ih.1], ?_, ih.2.2⟩
      intro c hcmem
      rcases List.mem_cons.mp hcmem with rfl | hmem
      · exact hx
      · exact ih.2.1 c hmem

theorem parseDecimalCore_none {l : List Char} {c : Char} (hc : c ∈ l)
    (h1 : c.isDigit = false) (h2 : ¬(c = '.')) : parseDecimalCore l = none := by
  obtain ⟨hsplit, hdot1, hdot2⟩ := breakDot_spec l
  unfold parseDecimalCore
  rcases hbd : breakDot l with ⟨ds, r⟩
  rw [hbd] at hsplit hdot1 hdot2
  cases r with
  | nil =>
    dsimp only at hsplit ⊢
    rw [List.append_nil] at hsplit
    subst hsplit
    simp [allDigits_false hc h1]
  | cons d fs =>
    dsimp only at hsplit hdot2 ⊢
    have hd : d = '.' := by
      rcases hdot2 with hnil | ⟨t, ht⟩
      · cases hnil
      · exact (List.cons_eq_cons.mp ht).1
    by_cases hdfs : '.' ∈ fs
    · simp [hdfs]
    · rw [if_neg hdfs]
      have hcmem : c ∈ ds ∨ c ∈ fs := by
        rw [← hsplit] at hc
        rcases List.mem_append.mp hc with hl | hr
        · exact Or.inl hl
        · rcases List.mem_cons.mp hr with rfl | hfs
          · exact absurd hd h2
          · exact Or.inr hfs
      rcases hcmem with hds | hfs
      · simp [allDigits_false hds h1]
      · simp [allDigits_false hfs h1]

theorem parseDecimal_none {s : String} {c : Char} (hc : c ∈ s.data)
    (h1 : c.isDigit = false) (h2 : ¬(c = '.')) (h3 : ¬(c = '-')) :
    parseDecimal s = none := by
  rcases s with ⟨l⟩
  cases l with
  | nil => cases hc
  | cons x xs =>
    simp only [parseDecimal]
    by_cases hx : x = '-'
    · rw [if_pos hx]
      have hcxs : c ∈ xs := by
        rcases List.mem_cons.mp hc with rfl | hm
        · exact absurd hx h3
        · exact hm
      rw [parseDecimalCore_none hcxs h1 h2]
      rfl
    · rw [if_neg hx]
      exact parseDecimalCore_none hc h1 h2

theorem decTrunc_zero_nonneg {m : Int} (h : 0 ≤ m) : decTrunc m 0 = m := by
  unfold decTrunc
  rw [if_neg (by omega)]
  simp

theorem findSuffix_b (sd : List Char) :
    memorySuffixes.find? (fun p => pyEndsWith ⟨sd ++ ['b']⟩ p.1) = some ("b", 1) := by
  simp [memorySuffixes, List.find?, pyEndsWith_app, List.isPrefixOf]

theorem findSuffix_k (sd : List Char) :
    memorySuffixes.find? (fun p => pyEndsWith ⟨sd ++ ['k']⟩ p.1) = some ("k", 1024) := by
  simp [memorySuffixes, List.find?, pyEndsWith_app, List.isPrefixOf]

theorem findSuffix_kb (sd : List Char) :
    memorySuffixes.find? (fun p => pyEndsWith ⟨sd ++ ['k', 'b']⟩ p.1) = some ("b", 1) := by
  simp [memorySuffixes, List.find?, pyEndsWith_app, List.isPrefixOf]

theorem findSuffix_m (sd : List Char) :
    memorySuffixes.find? (fun p => pyEndsWith ⟨sd ++ ['m']⟩ p.1) = some ("m", 1024 ^ 2) := by
  simp [memorySuffixes, List.find?, pyEndsWith_app, List.isPrefixOf]

theorem findSuffix_mb (sd : List Char) :
    memorySuffixes.find? (fun p => pyEndsWith ⟨sd ++ ['m', 'b']⟩ p.1) = some ("b", 1) := by
  simp [memorySuffixes, List.find?, pyEndsWith_app, List.isPrefixOf]

theorem findSuffix_mi (sd : List Char) :
    memorySuffixes.find? (fun p => pyEndsWith ⟨sd ++ ['m', 'i']⟩ p.1) = some ("mi", 1024 ^ 2) := by
  simp [memorySuffixes, List.find?, pyEndsWith_app, List.isPrefixOf]

theorem findSuffix_g (sd : List Char) :
    memorySuffixes.find? (fun p => pyEndsWith ⟨sd ++ ['g']⟩ p.1) = some ("g", 1024 ^ 3) := by
  simp [memorySuffixes, List.find?, pyEndsWith_app, List.isPrefixOf]

theorem findSuffix_gb (sd : List Char) :
    memorySuffixes.find? (fun p => pyEndsWith ⟨sd ++ ['g', 'b']⟩ p.1) = some ("b", 1) := by
  simp [memorySuffixes, List.find?, pyEndsWith_app, List.isPrefixOf]

theorem findSuffix_gi (sd : List Char) :
    memorySuffixes.find? (fun p => pyEndsWith ⟨sd ++ ['g', 'i']⟩ p.1) = some ("gi", 1024 ^ 3) := by
  simp [memorySuffixes, List.find?, pyEndsWith_app, List.isPrefixOf]

theorem findSuffix_t (sd : List Char) :
    memorySuffixes.find? (fun p => pyEndsWith ⟨sd ++ ['t']⟩ p.1) = some ("t", 1024 ^ 4) := by
  simp [memorySuffixes, List.find?, pyEndsWith_app, List.isPrefixOf]

theorem findSuffix_tb (sd : List Char) :
    memorySuffixes.find? (fun p => pyEndsWith ⟨sd ++ ['t', 'b']⟩ p.1) = some ("b", 1) := by
  simp [memorySuffixes, List.find?, pyEndsWith_app, List.isPrefixOf]

theorem memoryBytes_app_ki {l : List Char} (hne : l ≠ []) (h : allDigits l = true) :
    memoryBytes ⟨l ++ ['k', 'i']⟩ = some ((digitsToNat l : Int) * 1024) := by
  have hlow : pyLower ⟨l ++ ['k', 'i']⟩ = ⟨l ++ ['k', 'i']⟩ :=
    (pyLower_append ⟨l⟩ ['k', 'i'] h).trans (by rfl)
  simp only [memoryBytes, hlow, findSuffix_ki]
  rw [show pyDropRight ⟨l ++ ['k', 'i']⟩ ("ki" : String).length = ⟨l⟩ from
    pyDropRight_app l ['k', 'i']]
  rw [parseDecimal_digits hne h]
  simp only [Option.map_some']
  rw [decTrunc_zero_nonneg (by positivity)]
  norm_num

theorem memoryBytes_app_b {l : List Char} (hne : l ≠ []) (h : allDigits l = true) :
    memoryBytes ⟨l ++ ['b']⟩ = some ((digitsToNat l : Int) * 1) := by
  have hlow : pyLower ⟨l ++ ['b']⟩ = ⟨l ++ ['b']⟩ :=
    (pyLower_append ⟨l⟩ ['b'] h).trans (by rfl)
  simp only [memoryBytes, hlow, findSuffix_b]
  rw [show pyDropRight ⟨l ++ ['b']⟩ ("b" : String).length = ⟨l⟩ from
    pyDropRight_app l ['b']]
  rw [parseDecimal_digits hne h]
  simp only [Option.map_some']
  rw [decTrunc_zero_nonneg (by positivity)]
  norm_num

theorem memoryBytes_app_k {l : List Char} (hne : l ≠ []) (h : allDigits l = true) :
    memoryBytes ⟨l ++ ['k']⟩ = some ((digitsToNat l : Int) * 1024) := by
  have hlow : pyLower ⟨l ++ ['k']⟩ = ⟨l ++ ['k']⟩ :=
    (pyLower_append ⟨l⟩ ['k'] h).trans (by rfl)
  simp only [memoryBytes, hlow, findSuffix_k]
  rw [show pyDropRight ⟨l ++ ['k']⟩ ("k" : String).length = ⟨l⟩ from
    pyDropRight_app l ['k']]
  rw [parseDecimal_digits hne h]
  simp only [Option.map_some']
  rw [decTrunc_zero_nonneg (by positivity)]
  norm_num

theorem memoryBytes_app_m {l : List Char} (hne : l ≠ []) (h : allDigits l = true) :
    memoryBytes ⟨l ++ ['m']⟩ = some ((digitsToNat l : Int) * 1024 ^ 2) := by
  have hlow : pyLower ⟨l ++ ['m']⟩ = ⟨l ++ ['m']⟩ :=
    (pyLower_append ⟨l⟩ ['m'] h).trans (by rfl)
  simp only [memoryBytes, hlow, findSuffix_m]
  rw [show pyDropRight ⟨l ++ ['m']⟩ ("m" : String).length = ⟨l⟩ from
    pyDropRight_app l ['m']]
  rw [parseDecimal_digits hne h]
  simp only [Option.map_some']
  rw [decTrunc_zero_nonneg (by positivity)]
  norm_num

theorem memoryBytes_app_mi {l : List Char} (hne : l ≠ []) (h : allDigits l = true) :
    memoryBytes ⟨l ++ ['m', 'i']⟩ = some ((digitsToNat l : Int) * 1024 ^ 2) := by
  have hlow : pyLower ⟨l ++ ['m', 'i']⟩ = ⟨l ++ ['m', 'i']⟩ :=
    (pyLower_append ⟨l⟩ ['m', 'i'] h).trans (by rfl)
  simp only [memoryBytes, hlow, findSuffix_mi]
  rw [show pyDropRight ⟨l ++ ['m', 'i']⟩ ("mi" : String).length = ⟨l⟩ from
    pyDropRight_app l ['m', 'i']]
  rw [parseDecimal_digits hne h]
  simp only [Option.map_some']
  rw [decTrunc_zero_nonneg (by positivity)]
  norm_num

theorem memoryBytes_app_g {l : List Char} (hne : l ≠ []) (h : allDigits l = true) :
    memoryBytes ⟨l ++ ['g']⟩ = some ((digitsToNat l : Int) * 1024 ^ 3) := by
  have hlow : pyLower ⟨l ++ ['g']⟩ = ⟨l ++ ['g']⟩ :=
    (pyLower_append ⟨l⟩ ['g'] h).trans (by rfl)
  simp only [memoryBytes, hlow, findSuffix_g]
  rw [show pyDropRight ⟨l ++ ['g']⟩ ("g" : String).length = ⟨l⟩ from
    pyDropRight_app l ['g']]
  rw [parseDecimal_digits hne h]
  simp only [Option.map_some']
  rw [decTrunc_zero_nonneg (by positivity)]
  norm_num

theorem memoryBytes_app_gi {l : List Char} (hne : l ≠ []) (h : allDigits l = true) :
    memoryBytes ⟨l ++ ['g', 'i']⟩ = some ((digitsToNat l : Int) * 1024 ^ 3) := by
  have hlow : pyLower ⟨l ++ ['g', 'i']⟩ = ⟨l ++ ['g', 'i']⟩ :=
    (pyLower_append ⟨l⟩ ['g', 'i'] h).trans (by rfl)
  simp only [memoryBytes, hlow, findSuffix_gi]
  rw [show pyDropRight ⟨l ++ ['g', 'i']⟩ ("gi" : String).length = ⟨l⟩ from
    pyDropRight_app l ['g', 'i']]
  rw [parseDecimal_digits hne h]
  simp only [Option.map_some']
  rw [decTrunc_zero_nonneg (by positivity)]
  norm_num

theorem memoryBytes_app_t {l : List Char} (hne : l ≠ []) (h : allDigits l = true) :
    memoryBytes ⟨l ++ ['t']⟩ = some ((digitsToNat l : Int) * 1024 ^ 4) := by
  have hlow : pyLower ⟨l ++ ['t']⟩ = ⟨l ++ ['t']⟩ :=
    (pyLower_append ⟨l⟩ ['t'] h).trans (by rfl)
  simp only [memoryBytes, hlow, findSuffix_t]
  rw [show pyDropRight ⟨l ++ ['t']⟩ ("t" : String).length = ⟨l⟩ from
    pyDropRight_app l ['t']]
  rw [parseDecimal_digits hne h]
  simp only [Option.map_some']
  rw [decTrunc_zero_nonneg (by positivity)]
  norm_num

theorem memoryBytes_app_kb {l : List Char} (h : allDigits l = true) :
    memoryBytes ⟨l ++ ['k', 'b']⟩ = none := by
  have hlow : pyLower ⟨l ++ ['k', 'b']⟩ = ⟨l ++ ['k', 'b']⟩ :=
    (pyLower_append ⟨l⟩ ['k', 'b'] h).trans (by rfl)
  simp only [memoryBytes, hlow, findSuffix_kb]
  have hdrop : pyDropRight ⟨l ++ ['k', 'b']⟩ ("b" : String).length = ⟨l ++ ['k']⟩ := by
    have h2 := pyDropRight_app (l ++ ['k']) ['b']
    simpa [List.append_assoc] using h2
  rw [hdrop]
  rw [parseDecimal_none (c := 'k') (by simp) rfl (by decide) (by decide)]
  rfl

theorem memoryBytes_app_mb {l : List Char} (h : allDigits l = true) :
    memoryBytes ⟨l ++ ['m', 'b']⟩ = none := by
  have hlow : pyLower ⟨l ++ ['m', 'b']⟩ = ⟨l ++ ['m', 'b']⟩ :=
    (pyLower_append ⟨l⟩ ['m', 'b'] h).trans (by rfl)
  simp only [memoryBytes, hlow, findSuffix_mb]
  have hdrop : pyDropRight ⟨l ++ ['m', 'b']⟩ ("b" : String).length = ⟨l ++ ['m']⟩ := by
    have h2 := pyDropRight_app (l ++ ['m']) ['b']
    simpa [List.append_assoc] using h2
  rw [hdrop]
  rw [parseDecimal_none (c := 'm') (by simp) rfl (by decide) (by decide)]
  rfl

theorem memoryBytes_app_gb {l : List Char} (h : allDigits l = true) :
    memoryBytes ⟨l ++ ['g', 'b']⟩ = none := by
  have hlow : pyLower ⟨l ++ ['g', 'b']⟩ = ⟨l ++ ['g', 'b']⟩ :=
    (pyLower_append ⟨l⟩ ['g', 'b'] h).trans (by rfl)
  simp only [memoryBytes, hlow, findSuffix_gb]
  have hdrop : pyDropRight ⟨l ++ ['g', 'b']⟩ ("b" : String).length = ⟨l ++ ['g']⟩ := by
    have h2 := pyDropRight_app (l ++ ['g']) ['b']
    simpa [List.append_assoc] using h2
  rw [hdrop]
  rw [parseDecimal_none (c := 'g') (by simp) rfl (by decide) (by decide)]
  rfl

theorem memoryBytes_app_tb {l : List Char} (h : allDigits l = true) :
    memoryBytes ⟨l ++ ['t', 'b']⟩ = none := by
  have hlow : pyLower ⟨l ++ ['t', 'b']⟩ = ⟨l ++ ['t', 'b']⟩ :=
    (pyLower_append ⟨l⟩ ['t', 'b'] h).trans (by rfl)
  simp only [memoryBytes, hlow, findSuffix_tb]
  have hdrop : pyDropRight ⟨l ++ ['t', 'b']⟩ ("b" : String).length = ⟨l ++ ['t']⟩ := by
    have h2 := pyDropRight_app (l ++ ['t']) ['b']
    simpa [List.append_assoc] using h2
  rw [hdrop]
  rw [parseDecimal_none (c := 't') (by simp) rfl (by decide) (by decide)]
  rfl

theorem memoryBytes_digits_plain {l : List Char} (hne : l ≠ []) (h : allDigits l = true) :
    memoryBytes ⟨l⟩ = some ((digitsToNat l : Int)) := by
  have hlow : pyLower ⟨l⟩ = ⟨l⟩ := by
    simp [pyLower, map_toLower_digits h]
  simp only [memoryBytes, hlow, findSuffix_digits l hne h]
  exact parsePyInt_digits hne h

theorem pyEndsWith_digits_m {l : List Char} (hne : l ≠ []) (h : allDigits l = true) :
    pyEndsWith ⟨l⟩ "m" = false := by
  obtain ⟨d, r, hdr⟩ : ∃ d r, l.reverse = d :: r := by
    cases hrev : l.reverse with
    | nil => exact absurd (by simpa using congrArg List.reverse hrev) hne
    | cons d r => exact ⟨d, r, rfl⟩
  have hd : d.isDigit = true := by
    have hmem : d ∈ l := by
      have : d ∈ l.reverse := by rw [hdr]; exact List.mem_cons_self d r
      simpa using this
    exact List.all_eq_true.mp h d hmem
  have hb : (('m' : Char) == d) = false :=
    beq_eq_false_iff_ne.mpr fun he => absurd he.symm (digit_ne hd rfl)
  simp [pyEndsWith, hdr, List.isPrefixOf, hb]

theorem strMk_ne_empty {l : List Char} (hne : l ≠ []) : ¬((⟨l⟩ : String) = "") := by
  intro heq
  exact hne (by simpa using congrArg String.data heq)

theorem nanoCpus_digits_m {l : List Char} (hne : l ≠ []) (h : allDigits l = true) :
    nanoCpus ⟨l ++ ['m']⟩ = some ((digitsToNat l : Int) * 1000000) := by
  unfold nanoCpus
  rw [if_neg (strMk_ne_empty (by simp)), if_pos ?hends]
  case hends =>
    rw [pyEndsWith_app]
    simp [List.isPrefixOf]
  rw [show pyDropRight ⟨l ++ ['m']⟩ 1 = ⟨l⟩ from pyDropRight_app l ['m']]
  rw [parsePyInt_digits hne h]
  simp only [Option.map_some']
  congr 1
  rw [show NANO_CPU_SCALE = 1000000 * 1000 from rfl, ← mul_assoc,
    Int.mul_fdiv_cancel _ (by norm_num)]

theorem nanoCpus_digits_plain {l : List Char} (hne : l ≠ []) (h : allDigits l = true) :
    nanoCpus ⟨l⟩ = some ((digitsToNat l : Int) * 1000000000) := by
  unfold nanoCpus
  rw [if_neg (strMk_ne_empty hne)]
  rw [if_neg ?hnm]
  case hnm =>
    rw [pyEndsWith_digits_m hne h]
    exact Bool.false_ne_true
  rw [parseDecimal_digits hne h]
  simp only [Option.map_some']
  rw [show NANO_CPU_SCALE = (1000000000 : Int) from rfl]
  rw [decTrunc_zero_nonneg (by positivity)]

/-- Claim C3 (counterexample): the claim's suffix table maps `kb` to 1024, so
`"1kb"` should parse to `1 * 1024` bytes.  In the code the table is scanned
in insertion order and `"1kb"` first matches the suffix `"b"`, leaving the
numeric part `"1k"`, whose `float()` parse raises `ValueError`: the parse
fails instead of producing 1024. -/
theorem C3_counterexample :
    memoryBytes "1kb" = none ∧ memoryBytes "1kb" ≠ some (1 * 1024) := by
  decide

/-- Claim C3 (amended): memory strings are matched against the suffix table
in its insertion order `b, k, kb, ki, m, mb, mi, g, gb, gi, t, tb`, taking
the *first* suffix the lower-cased string ends with.  Since every two-letter
`b`-suffix itself ends in `b`, inputs ending in `kb`/`mb`/`gb`/`tb` match
`"b"` first and fail to parse; `b`, `k`, `ki`, `m`, `mi`, `g`, `gi`, `t`
multiply by 1, 1024, 1024, 1024², 1024², 1024³, 1024³, 1024⁴; bare integer
digits are bytes; matching is case-insensitive; fractional values parse and
truncate.  Cpu strings: trailing `m` is millicores (`× 10⁶` nano-CPUs),
otherwise a decimal CPU count `× 10⁹`, truncated; the empty string is 0. -/
theorem C3_amended_limit_parsing :
    (∀ stem : String, stem.data ≠ [] → allDigits stem.data = true →
      memoryBytes (stem ++ "b") = some ((digitsToNat stem.data : Int) * 1) ∧
      memoryBytes (stem ++ "k") = some ((digitsToNat stem.data : Int) * 1024) ∧
      memoryBytes (stem ++ "kb") = none ∧
      memoryBytes (stem ++ "ki") = some ((digitsToNat stem.data : Int) * 1024) ∧
      memoryBytes (stem ++ "m") = some ((digitsToNat stem.data : Int) * 1024 ^ 2) ∧
      memoryBytes (stem ++ "mb") = none ∧
      memoryBytes (stem ++ "mi") = some ((digitsToNat stem.data : Int) * 1024 ^ 2) ∧
      memoryBytes (stem ++ "g") = some ((digitsToNat stem.data : Int) * 1024 ^ 3) ∧
      memoryBytes (stem ++ "gb") = none ∧
      memoryBytes (stem ++ "gi") = some ((digitsToNat stem.data : Int) * 1024 ^ 3) ∧
      memoryBytes (stem ++ "t") = some ((digitsToNat stem.data : Int) * 1024 ^ 4) ∧
      memoryBytes (stem ++ "tb") = none ∧
      memoryBytes stem = some ((digitsToNat stem.data : Int)) ∧
      nanoCpus (stem ++ "m") = some ((digitsToNat stem.data : Int) * 1000000) ∧
      nanoCpus stem = some ((digitsToNat stem.data : Int) * 1000000000)) ∧
    memoryBytes "1.5g" = some 1610612736 ∧
    memoryBytes "512M" = some 536870912 ∧
    memoryBytes "512m" = some (512 * 1024 ^ 2) ∧
    nanoCpus "500m" = some 500000000 ∧
    nanoCpus "2" = some 2000000000 ∧
    nanoCpus "0.5" = some 500000000 ∧
    nanoCpus "" = some 0 := by
  refine ⟨?_, by decide, by decide, by decide, by decide, by decide, by decide, by decide⟩
  intro stem hne h
  rcases stem with ⟨l⟩
  exact ⟨memoryBytes_app_b hne h, memoryBytes_app_k hne h, memoryBytes_app_kb h,
    memoryBytes_app_ki hne h, memoryBytes_app_m hne h, memoryBytes_app_mb h,
    memoryBytes_app_mi hne h, memoryBytes_app_g hne h, memoryBytes_app_gb h,
    memoryBytes_app_gi hne h, memoryBytes_app_t hne h, memoryBytes_app_tb h,
    memoryBytes_digits_plain hne h, nanoCpus_digits_m hne h, nanoCpus_digits_plain hne h⟩

theorem C3_witness :
    memoryBytes ("512" ++ "m") =
      some ((digitsToNat ("512" : String).data : Int) * 1024 ^ 2) ∧
    nanoCpus ("500" ++ "m") = some ((digitsToNat ("500" : String).data : Int) * 1000000) :=
  ⟨(C3_amended_limit_parsing.1 "512" (by decide) (by decide)).2.2.2.2.1,
   (C3_amended_limit_parsing.1 "500" (by decide) (by decide)).2.2.2.2.2.2.2.2.2.2.2.2.2.1⟩
